import Mathlib

/-!
Verification development for the collaborative sticky-note canvas app
("Canvapp").  The definitions below are a shallow embedding of the
claim-relevant parts of the source: the data model (`types.ts`), the Board
Store upsert performed by `saveAndBroadcastBoard` and by the
BroadcastChannel `onmessage` handler, the JSON-load helpers
(`safeJsonParse` / `loadBoards`), the item layer reordering
(`changeItemLayer`), the pointer drag/resize interaction handlers
(`handlePointerDown`, `handleResizeStart`, `handlePointerMove`,
`handlePointerUp`) and the per-item authorization gate of
`DraggableItem`.

JavaScript numbers are modelled as `Int`: every claim-relevant
computation is addition, subtraction and `Math.max` on values whose
representability is not at issue.  Optional fields (`width?`, `height?`)
are `Option Int`, and the JavaScript truthiness tests the source applies
to them (`item.width || defaultWidth`, `itemInitialState.height ? _ : _`,
where both `undefined` and `0` are falsy) are modelled explicitly.
-/

/-- `enum ItemType` from `types.ts`. -/
inductive ItemType where
  | TEXT
  | IMAGE
  | STICKER
  | EMOJI
deriving DecidableEq, Repr

/-- `interface CanvasItem` from `types.ts` (`x`, `y`, `width`, `height`,
`rotation`, `createdAt` are JS numbers, modelled as `Int`). -/
structure CanvasItem where
  id : String
  type : ItemType
  content : String
  x : Int
  y : Int
  width : Option Int := none
  height : Option Int := none
  rotation : Int
  author : String
  color : Option String := none
  textColor : Option String := none
  createdAt : Int
deriving DecidableEq, Repr

/-- `interface User` from `types.ts`. -/
structure User where
  id : String
  name : String
deriving DecidableEq, Repr

/-- CSS `background-size` values accepted by `Board.backgroundSize`. -/
inductive BackgroundSize where
  | cover
  | contain
  | auto
deriving DecidableEq, Repr

/-- `interface Board` from `types.ts`. -/
structure Board where
  id : String
  topic : String
  items : List CanvasItem
  createdAt : Int
  host : String
  backgroundImage : Option String := none
  backgroundSize : Option BackgroundSize := none
deriving DecidableEq, Repr

/-! ## JSON loading (`safeJsonParse`, `loadBoards`) -/

/-- A JSON value, as produced by `JSON.parse` (numbers modelled as `Int`;
the numeric representation is irrelevant to the load/fallback logic). -/
inductive Json where
  | null
  | bool (b : Bool)
  | num (n : Int)
  | str (s : String)
  | arr (elems : List Json)
  | obj (members : List (String × Json))

/-- `safeJsonParse(str, fallback)`: `if (!str) return fallback;` (both
`null` and the empty string are falsy) `try { return JSON.parse(str) }
catch { return fallback }`.  The host primitive `JSON.parse` is a
parameter `parse`; an exception is modelled as `Except.error`. -/
def safeJsonParse (parse : String → Except String Json)
    (str : Option String) (fallback : Json) : Json :=
  match str with
  | none => fallback
  | some s =>
    if s = "" then fallback
    else
      match parse s with
      | .ok v => v
      | .error _ => fallback

/-- `loadBoards()`: `safeJsonParse(localStorage.getItem(STORAGE_KEY_BOARDS), [])`.
The `as Board[]` cast in the source is a compile-time assertion with no
runtime effect, so the result is whatever JSON value was parsed. -/
def loadBoards (parse : String → Except String Json)
    (storedBoards : Option String) : Json :=
  safeJsonParse parse storedBoards (Json.arr [])

/-! ## Board Store upsert

`saveAndBroadcastBoard` updates the boards list with
`findIndex` on the board id, then either replaces the entry at that index
or appends; the `onmessage` handler for `UPDATE_BOARD` does the same
(with `push` instead of a spread-append).  Both are the
replace-first-match-or-append function below, written by structural
recursion. -/

/-- Core list update of `saveAndBroadcastBoard` (`App.tsx` lines 252-259):
replace the first entry whose `id` equals `updatedBoard.id`, or append
`updatedBoard` if no entry matches. -/
def upsertBoard : List Board → Board → List Board
  | [], updatedBoard => [updatedBoard]
  | b :: rest, updatedBoard =>
    if b.id == updatedBoard.id then updatedBoard :: rest
    else b :: upsertBoard rest updatedBoard

/-- Core list update of the `UPDATE_BOARD` branch of
`channelRef.current.onmessage` (`App.tsx` lines 210-224): identical
replace-or-append on the receiver's boards list. -/
def receiveUpdateBoard : List Board → Board → List Board
  | [], updatedBoard => [updatedBoard]
  | b :: rest, updatedBoard =>
    if b.id == updatedBoard.id then updatedBoard :: rest
    else b :: receiveUpdateBoard rest updatedBoard

/-- The last board with id `i` in a sequence of published/received
snapshots (`none` if the sequence has no board with that id).  Used to
state last-write-wins. -/
def lastById (bs : List Board) (i : String) : Option Board :=
  bs.foldl (fun acc b => if b.id == i then some b else acc) none

/-! ## Item layer reordering (`changeItemLayer`) -/

/-- The `direction` argument of `changeItemLayer`. -/
inductive LayerDirection where
  | front
  | back
deriving DecidableEq, Repr

/-- `items.findIndex` + `items.splice(index, 1)` combined: remove the
first item whose `id` matches and return it with the remaining list, or
`none` when `findIndex` returns `-1`. -/
def extractFirstItem (id : String) : List CanvasItem →
    Option (CanvasItem × List CanvasItem)
  | [] => none
  | i :: rest =>
    if i.id == id then some (i, rest)
    else (extractFirstItem id rest).map (fun p => (p.1, i :: p.2))

/-- `changeItemLayer(id, direction)` (`App.tsx` lines 447-466) applied to
a board: no-op when the id is not found, otherwise the removed item is
`push`ed to the end (`front`) or `unshift`ed to the start (`back`). -/
def changeItemLayer (board : Board) (id : String)
    (direction : LayerDirection) : Board :=
  match extractFirstItem id board.items with
  | none => board
  | some (item, rest) =>
    { board with
      items :=
        match direction with
        | .front => rest ++ [item]
        | .back => item :: rest }

/-! ## Interaction state machine -/

/-- A pointer position (`e.clientX`, `e.clientY`). -/
structure Pointer where
  x : Int
  y : Int
deriving DecidableEq, Repr

/-- The claim-relevant React state of `App`: the boards list, the
current board, and the interaction slot (`draggedItemId`,
`resizingItemId`, `interactionStart`, `itemInitialState`). -/
structure AppState where
  boards : List Board
  currentBoard : Option Board
  draggedItemId : Option String
  resizingItemId : Option String
  interactionStart : Pointer
  itemInitialState : Option CanvasItem
deriving DecidableEq, Repr

/-- JS truthiness of an optional number: `undefined` and `0` are falsy. -/
def truthyNum : Option Int → Bool
  | none => false
  | some n => n != 0

/-- JS `a || b` where `a` is an optional number and `b` the default:
yields `a` when `a` is truthy, else `b`. -/
def jsOrNum (a b : Option Int) : Option Int :=
  if truthyNum a then a else b

/-- `currentBoard?.items.find(i => i.id === id)`. -/
def findItem (currentBoard : Option Board) (id : String) : Option CanvasItem :=
  match currentBoard with
  | none => none
  | some board => board.items.find? (fun i => i.id == id)

/-- `handlePointerDown` (`App.tsx` lines 470-479): if the item exists in
the current board, set `draggedItemId`, record the pointer start and
snapshot the item (`{ ...item }`); otherwise do nothing. -/
def handlePointerDown (s : AppState) (e : Pointer) (id : String) : AppState :=
  match findItem s.currentBoard id with
  | none => s
  | some item =>
    { s with
      draggedItemId := some id,
      interactionStart := e,
      itemInitialState := some item }

/-- `const defaultWidth = item.type === TEXT ? 250 : (item.type === EMOJI ? 100 : 200)`. -/
def defaultWidth (t : ItemType) : Int :=
  if t == ItemType.TEXT then 250 else if t == ItemType.EMOJI then 100 else 200

/-- `const defaultHeight = (IMAGE || STICKER || EMOJI) ? (EMOJI ? 100 : 200) : undefined`. -/
def defaultHeight (t : ItemType) : Option Int :=
  if t == ItemType.IMAGE || t == ItemType.STICKER || t == ItemType.EMOJI then
    (if t == ItemType.EMOJI then some 100 else some 200)
  else none

/-- The snapshot captured by `handleResizeStart`:
`{ ...item, width: item.width || defaultWidth, height: item.height || defaultHeight }`. -/
def resizeSnapshot (item : CanvasItem) : CanvasItem :=
  { item with
    width := jsOrNum item.width (some (defaultWidth item.type)),
    height := jsOrNum item.height (defaultHeight item.type) }

/-- `handleResizeStart` (`App.tsx` lines 481-497): if the item exists in
the current board, set `resizingItemId`, record the pointer start and
snapshot the item with per-type defaulted dimensions. -/
def handleResizeStart (s : AppState) (e : Pointer) (id : String) : AppState :=
  match findItem s.currentBoard id with
  | none => s
  | some item =>
    { s with
      resizingItemId := some id,
      interactionStart := e,
      itemInitialState := some (resizeSnapshot item) }

/-- The per-item update of the drag branch of `handlePointerMove`:
`{ ...item, x: itemInitialState.x + deltaX, y: itemInitialState.y + deltaY }`
applied to every item whose id is `draggedItemId`. -/
def dragUpdate (items : List CanvasItem) (dragId : String)
    (snap : CanvasItem) (dx dy : Int) : List CanvasItem :=
  items.map (fun item =>
    if item.id == dragId then { item with x := snap.x + dx, y := snap.y + dy }
    else item)

/-- The per-item update of the resize branch of `handlePointerMove`:
`width: Math.max(50, (itemInitialState.width || 0) + deltaX)` and
`height: itemInitialState.height ? Math.max(50, itemInitialState.height + deltaY) : undefined`
(`snap.width || 0` is `snap.width.getD 0`, since a falsy width — absent
or `0` — yields `0`; the height test is JS truthiness). -/
def resizeItem (snap : CanvasItem) (dx dy : Int) (item : CanvasItem) : CanvasItem :=
  { item with
    width := some (max 50 (snap.width.getD 0 + dx)),
    height :=
      if truthyNum snap.height then some (max 50 (snap.height.getD 0 + dy))
      else none }

/-- The resize branch of `handlePointerMove` applied to the items list. -/
def resizeUpdate (items : List CanvasItem) (resizeId : String)
    (snap : CanvasItem) (dx dy : Int) : List CanvasItem :=
  items.map (fun item =>
    if item.id == resizeId then resizeItem snap dx dy item else item)

/-- `handlePointerMove` (`App.tsx` lines 499-539): no-op unless both
`currentBoard` and `itemInitialState` are present; then the drag branch
(`if (draggedItemId)`) or else the resize branch
(`else if (resizingItemId)`) recomputes the live item from the snapshot
and `delta = pointer - interactionStart`. -/
def handlePointerMove (s : AppState) (e : Pointer) : AppState :=
  match s.currentBoard, s.itemInitialState with
  | some board, some snap =>
    match s.draggedItemId with
    | some dragId =>
      { s with
        currentBoard := some
          { board with
            items := dragUpdate board.items dragId snap
              (e.x - s.interactionStart.x) (e.y - s.interactionStart.y) } }
    | none =>
      match s.resizingItemId with
      | some resizeId =>
        { s with
          currentBoard := some
            { board with
              items := resizeUpdate board.items resizeId snap
                (e.x - s.interactionStart.x) (e.y - s.interactionStart.y) } }
      | none => s
  | _, _ => s

/-- `saveAndBroadcastBoard(updatedBoard)` as a state update: sets the
current board and upserts into the boards list (the durable write and the
channel `postMessage` carry the same value and are outside the state). -/
def saveAndBroadcastBoard (s : AppState) (updatedBoard : Board) : AppState :=
  { s with
    currentBoard := some updatedBoard,
    boards := upsertBoard s.boards updatedBoard }

/-- `handlePointerUp` (`App.tsx` lines 541-549): if an interaction is
active and a board is open, commit the current board via
`saveAndBroadcastBoard` and clear the interaction slot. -/
def handlePointerUp (s : AppState) : AppState :=
  match s.currentBoard with
  | some board =>
    if s.draggedItemId.isSome || s.resizingItemId.isSome then
      { saveAndBroadcastBoard s board with
        draggedItemId := none,
        resizingItemId := none,
        itemInitialState := none }
    else s
  | none => s

/-! ## Per-item authorization gate (`DraggableItem.tsx`) -/

/-- `const isAuthorized = currentUser && (currentUser.name === item.author || currentUser.name === hostName)`. -/
def isAuthorized (currentUser : Option User) (item : CanvasItem)
    (hostName : String) : Bool :=
  match currentUser with
  | none => false
  | some u => u.name == item.author || u.name == hostName

/-- `DraggableItem`'s own pointer-down handler: forwards to the app's
`handlePointerDown` only when `isAuthorized`. -/
def itemPointerDown (currentUser : Option User) (hostName : String)
    (item : CanvasItem) (s : AppState) (e : Pointer) : AppState :=
  if isAuthorized currentUser item hostName then handlePointerDown s e item.id
  else s

/-- `DraggableItem`'s resize-handle pointer-down handler: forwards to the
app's `handleResizeStart` only when `isAuthorized`. -/
def itemResizePointerDown (currentUser : Option User) (hostName : String)
    (item : CanvasItem) (s : AppState) (e : Pointer) : AppState :=
  if isAuthorized currentUser item hostName then handleResizeStart s e item.id
  else s

/-- A pointer event addressed at a fixed rendered item (the down events
go through `DraggableItem`'s authorization gate; move and up are handled
by the board view for all items). -/
inductive CanvasPointerEvent where
  | down (e : Pointer)
  | resizeStart (e : Pointer)
  | move (e : Pointer)
  | up

/-- One pointer event applied to the app state, with the down events
gated by the fixed item's authorization check. -/
def applyPointerEvent (currentUser : Option User) (hostName : String)
    (item : CanvasItem) (s : AppState) : CanvasPointerEvent → AppState
  | .down e => itemPointerDown currentUser hostName item s e
  | .resizeStart e => itemResizePointerDown currentUser hostName item s e
  | .move e => handlePointerMove s e
  | .up => handlePointerUp s

/-- The app state mid-drag: after `handlePointerDown` captured `item`
(the entry found for `id` in board `b`) at pointer `p0`, and the latest
move event was at pointer `e`.  Used to state the drag invariant. -/
def dragMovedState (s : AppState) (b : Board) (id : String)
    (item : CanvasItem) (p0 e : Pointer) : AppState :=
  { s with
    draggedItemId := some id,
    interactionStart := p0,
    itemInitialState := some item,
    currentBoard := some
      { b with
        items := dragUpdate b.items id item (e.x - p0.x) (e.y - p0.y) } }

/-! ## Concrete sample values (used to evaluate the theorems) -/

/-- A sample TEXT item authored by Ann. -/
def item1 : CanvasItem :=
  { id := "i1", type := .TEXT, content := "hi", x := 5, y := 7,
    width := some 250, rotation := 0, author := "Ann", createdAt := 0 }

/-- A sample EMOJI item authored by Ann. -/
def item2 : CanvasItem :=
  { id := "i2", type := .EMOJI, content := "e", x := 0, y := 0,
    width := some 100, height := some 100, rotation := 0, author := "Ann",
    createdAt := 0 }

/-- An EMOJI item with no prior width/height (the C9 scenario shape). -/
def emojiAuto : CanvasItem :=
  { id := "i3", type := .EMOJI, content := "e", x := 1, y := 2,
    rotation := 0, author := "Ann", createdAt := 0 }

/-- An EMOJI item whose stored width is the number `0` (defined but
falsy in JavaScript). -/
def zeroWidthEmoji : CanvasItem :=
  { id := "z", type := .EMOJI, content := "e", x := 0, y := 0,
    width := some 0, height := some 100, rotation := 0, author := "Ann",
    createdAt := 0 }

/-- A sample board hosted by Hank containing the sample items. -/
def board0 : Board :=
  { id := "b0", topic := "T", items := [item1, item2, emojiAuto, zeroWidthEmoji],
    createdAt := 0, host := "Hank" }

/-- The app state with `board0` open and no interaction active. -/
def state0 : AppState :=
  { boards := [board0], currentBoard := some board0, draggedItemId := none,
    resizingItemId := none, interactionStart := ⟨0, 0⟩,
    itemInitialState := none }

/-- A user who is neither the author of any sample item nor the host of
`board0`. -/
def eve : User := { id := "u9", name := "Eve" }

/-- Sample boards for the Board Store theorems. -/
def boardA : Board :=
  { id := "a", topic := "alpha", items := [], createdAt := 0, host := "Ann" }

/-- A later value upserted for the same id as `boardA`. -/
def boardA2 : Board :=
  { id := "a", topic := "alpha2", items := [], createdAt := 1, host := "Ann" }

/-- A board with an id distinct from `boardA`. -/
def boardB : Board :=
  { id := "b", topic := "beta", items := [], createdAt := 2, host := "Bob" }

/-- A parse function that always fails, standing for `JSON.parse` on a
malformed string. -/
def failParse : String → Except String Json := fun _ => .error "SyntaxError"

/-- A parse function returning the JSON number 7, standing for
`JSON.parse` on the string `"7"`. -/
def numParse : String → Except String Json := fun _ => .ok (Json.num 7)

/-! ## Helper lemmas: Board Store upsert -/

/-- The receiver-side upsert computes the same list as the sender-side
upsert. -/
theorem receiveUpdateBoard_eq_upsertBoard (l : List Board) (b : Board) :
    receiveUpdateBoard l b = upsertBoard l b := by
  induction l with
  | nil => rfl
  | cons x rest ih =>
    by_cases hx : x.id == b.id <;>
      simp [receiveUpdateBoard, upsertBoard, hx, ih]

/-- Upserting a board with an unseen id appends it. -/
theorem upsertBoard_of_not_mem (l : List Board) (b : Board)
    (h : b.id ∉ l.map (fun x => x.id)) : upsertBoard l b = l ++ [b] := by
  induction l with
  | nil => rfl
  | cons x rest ih =>
    simp only [List.map_cons, List.mem_cons, not_or] at h
    have hx : (x.id == b.id) = false := by
      simpa using Ne.symm h.1
    simp [upsertBoard, hx, ih h.2]

/-- Upserting a board whose id matches the first occurrence `x` replaces
`x` in place. -/
theorem upsertBoard_replace (l1 l2 : List Board) (x b : Board)
    (hx : x.id = b.id) (h1 : b.id ∉ l1.map (fun y => y.id)) :
    upsertBoard (l1 ++ x :: l2) b = l1 ++ b :: l2 := by
  induction l1 with
  | nil => simp [upsertBoard, hx]
  | cons y rest ih =>
    simp only [List.map_cons, List.mem_cons, not_or] at h1
    have hy : (y.id == b.id) = false := by
      simpa using Ne.symm h1.1
    simp [upsertBoard, hy, ih h1.2]

/-- Every id in an upserted list comes from the old list or the new
board. -/
theorem mem_ids_upsertBoard {l : List Board} {b : Board} {y : String}
    (h : y ∈ (upsertBoard l b).map (fun x => x.id)) :
    y ∈ l.map (fun x => x.id) ∨ y = b.id := by
  induction l with
  | nil =>
    simp [upsertBoard] at h
    exact Or.inr h
  | cons x rest ih =>
    by_cases hx : x.id == b.id
    · simp [upsertBoard, hx] at h
      rcases h with h | h
      · exact Or.inr h
      · exact Or.inl (by simp [h])
    · simp [upsertBoard, hx] at h
      rcases h with h | h
      · exact Or.inl (by simp [h])
      · rcases ih (by simpa using h) with h' | h'
        · exact Or.inl (by simp at h' ⊢; exact Or.inr h')
        · exact Or.inr h'

/-- Upserting preserves distinctness of the ids. -/
theorem nodup_ids_upsertBoard {l : List Board} {b : Board}
    (h : (l.map (fun x => x.id)).Nodup) :
    ((upsertBoard l b).map (fun x => x.id)).Nodup := by
  induction l with
  | nil => simp [upsertBoard]
  | cons x rest ih =>
    simp only [List.map_cons, List.nodup_cons] at h
    by_cases hx : x.id == b.id
    · have hxb : x.id = b.id := by simpa using hx
      simp only [upsertBoard, hx, if_pos, List.map_cons, List.nodup_cons]
      exact ⟨hxb ▸ h.1, h.2⟩
    · have hxb : x.id ≠ b.id := by simpa using hx
      simp only [upsertBoard, hx, if_neg, Bool.false_eq_true,
        not_false_eq_true, List.map_cons, List.nodup_cons]
      refine ⟨fun hmem => ?_, ih h.2⟩
      rcases mem_ids_upsertBoard hmem with h' | h'
      · exact h.1 h'
      · exact hxb h'

/-- Folding upserts over a list with distinct ids keeps the ids
distinct. -/
theorem nodup_ids_foldl_upsertBoard (ups : List Board) :
    ∀ l : List Board, (l.map (fun x => x.id)).Nodup →
      ((ups.foldl upsertBoard l).map (fun x => x.id)).Nodup := by
  induction ups with
  | nil => intro l h; simpa using h
  | cons u rest ih =>
    intro l h
    exact ih (upsertBoard l u) (nodup_ids_upsertBoard h)

/-- Looking an id up after an upsert: the upserted board wins for its own
id, everything else is unchanged. -/
theorem find?_upsertBoard (l : List Board) (b : Board) (i : String) :
    (upsertBoard l b).find? (fun x => x.id == i) =
      if b.id == i then some b else l.find? (fun x => x.id == i) := by
  induction l with
  | nil =>
    by_cases hbi : b.id == i <;> simp [upsertBoard, List.find?, hbi]
  | cons x rest ih =>
    by_cases hx : x.id == b.id
    · have hxb : x.id = b.id := by simpa using hx
      by_cases hbi : b.id == i
      · simp [upsertBoard, hx, List.find?, hbi]
      · have hxi : (x.id == i) = false := by
          rw [hxb]; simpa using hbi
        simp [upsertBoard, hx, List.find?, hbi, hxi]
    · by_cases hxi : x.id == i
      · have h1 : x.id = i := by simpa using hxi
        have h2 : x.id ≠ b.id := by simpa using hx
        have hbi : (b.id == i) = false := by
          subst h1
          simpa using fun he => h2 he.symm
        simp [upsertBoard, hx, List.find?, hxi, hbi]
      · have hxi' : (x.id == i) = false := by simpa using hxi
        have hx' : (x.id == b.id) = false := by simpa using hx
        simp only [upsertBoard, hx', Bool.false_eq_true, if_false,
          List.find?, hxi']
        exact ih

/-- Folding upserts, the lookup of an id is the last-written value for
that id, else the original lookup. -/
theorem find?_foldl_upsertBoard (ups : List Board) :
    ∀ (l : List Board) (i : String),
      (ups.foldl upsertBoard l).find? (fun x => x.id == i) =
        ups.foldl (fun acc b => if b.id == i then some b else acc)
          (l.find? (fun x => x.id == i)) := by
  induction ups with
  | nil => intro l i; rfl
  | cons u rest ih =>
    intro l i
    have h1 := ih (upsertBoard l u) i
    rw [List.foldl_cons, h1, find?_upsertBoard, List.foldl_cons]

/-- When a board with id `i` occurs in the received sequence, the
last-by-id fold absorbs any accumulator. -/
theorem foldl_lastById_some (i : String) (b : Board) :
    ∀ ups : List Board, lastById ups i = some b →
      ∀ acc : Option Board,
        ups.foldl (fun acc x => if x.id == i then some x else acc) acc =
          some b := by
  intro ups
  induction ups using List.reverseRecOn with
  | nil => intro h; exact absurd h (by simp [lastById])
  | append_singleton l u ih =>
    intro h acc
    unfold lastById at h
    rw [List.foldl_append] at h ⊢
    simp only [List.foldl_cons, List.foldl_nil] at h ⊢
    by_cases hu : u.id == i
    · simp only [hu, if_pos] at h ⊢
      exact h
    · have hu' : (u.id == i) = false := by simpa using hu
      simp only [hu', Bool.false_eq_true, if_false] at h ⊢
      exact ih (by unfold lastById; exact h) acc

/-! ## Helper lemmas: layer reordering -/

/-- `findIndex` misses: an id absent from the items yields no
extraction. -/
theorem extractFirstItem_of_not_mem (id : String) (l : List CanvasItem)
    (h : id ∉ l.map (fun i => i.id)) : extractFirstItem id l = none := by
  induction l with
  | nil => rfl
  | cons x rest ih =>
    simp only [List.map_cons, List.mem_cons, not_or] at h
    have hx : (x.id == id) = false := by simpa using Ne.symm h.1
    simp [extractFirstItem, hx, ih h.2]

/-- Extraction at the first occurrence: splicing out `x` leaves the two
surrounding segments in order. -/
theorem extractFirstItem_first (id : String) (l1 l2 : List CanvasItem)
    (x : CanvasItem) (hx : x.id = id) (h1 : id ∉ l1.map (fun i => i.id)) :
    extractFirstItem id (l1 ++ x :: l2) = some (x, l1 ++ l2) := by
  induction l1 with
  | nil => simp [extractFirstItem, hx]
  | cons y rest ih =>
    simp only [List.map_cons, List.mem_cons, not_or] at h1
    have hy : (y.id == id) = false := by simpa using Ne.symm h1.1
    simp [extractFirstItem, hy, ih h1.2]

/-! ## Claim theorems: Board Store -/

/-- C1: for every sequence of `upsertBoard` calls starting from the empty
Board Store, the in-memory list has exactly one entry per board id
(distinct ids) and looking an id up yields the last value upserted for
that id; moreover a single upsert appends when the id is unseen and
replaces the existing entry in place — same position, same length, all
other entries untouched — when the id is known. -/
theorem upsertBoard_last_write_wins :
    (∀ (l : List Board) (b : Board),
        b.id ∉ l.map (fun x => x.id) → upsertBoard l b = l ++ [b]) ∧
    (∀ (l1 l2 : List Board) (x b : Board),
        x.id = b.id → b.id ∉ l1.map (fun y => y.id) →
        upsertBoard (l1 ++ x :: l2) b = l1 ++ b :: l2 ∧
        (upsertBoard (l1 ++ x :: l2) b).length = (l1 ++ x :: l2).length) ∧
    (∀ ups : List Board,
        ((ups.foldl upsertBoard []).map (fun x => x.id)).Nodup) ∧
    (∀ (ups : List Board) (i : String),
        (ups.foldl upsertBoard []).find? (fun x => x.id == i) =
          lastById ups i) := by
  refine ⟨upsertBoard_of_not_mem, ?_, ?_, ?_⟩
  · intro l1 l2 x b hx h1
    have hr := upsertBoard_replace l1 l2 x b hx h1
    exact ⟨hr, by simp [hr]⟩
  · intro ups
    exact nodup_ids_foldl_upsertBoard ups [] (by simp)
  · intro ups i
    rw [find?_foldl_upsertBoard]
    rfl

/-- C1 witness: concrete upserts — an unseen id appends, a known id
replaces in place, and the fold-lookup equals the last upserted value. -/
theorem upsertBoard_last_write_wins_witness :
    upsertBoard [boardB] boardA = [boardB, boardA] ∧
    upsertBoard [boardB, boardA] boardA2 = [boardB, boardA2] ∧
    (upsertBoard [boardB, boardA] boardA2).length = 2 ∧
    ([boardA, boardB, boardA2].foldl upsertBoard []).find?
        (fun x => x.id == "a") = lastById [boardA, boardB, boardA2] "a" := by
  refine ⟨?_, ?_, ?_, ?_⟩
  · exact upsertBoard_last_write_wins.1 [boardB] boardA (by decide)
  · exact (upsertBoard_last_write_wins.2.1 [boardB] [] boardA boardA2
      (by decide) (by decide)).1
  · exact (upsertBoard_last_write_wins.2.1 [boardB] [] boardA boardA2
      (by decide) (by decide)).2
  · exact upsertBoard_last_write_wins.2.2.2 [boardA, boardB, boardA2] "a"

/-- C4: a received board snapshot replaces the entry with the same id in
place when one exists, is appended otherwise, and — with no timestamp or
version comparison anywhere in the handler — after any sequence of
received snapshots the entry stored for an id is the last snapshot
received for that id. -/
theorem receiveUpdateBoard_last_write_wins :
    (∀ (l : List Board) (b : Board),
        b.id ∉ l.map (fun x => x.id) → receiveUpdateBoard l b = l ++ [b]) ∧
    (∀ (l1 l2 : List Board) (x b : Board),
        x.id = b.id → b.id ∉ l1.map (fun y => y.id) →
        receiveUpdateBoard (l1 ++ x :: l2) b = l1 ++ b :: l2) ∧
    (∀ (l bs : List Board) (i : String) (b : Board),
        lastById bs i = some b →
        (bs.foldl receiveUpdateBoard l).find? (fun x => x.id == i) =
          some b) := by
  have hfun : receiveUpdateBoard = upsertBoard :=
    funext fun l => funext fun b => receiveUpdateBoard_eq_upsertBoard l b
  refine ⟨?_, ?_, ?_⟩
  · intro l b h
    rw [hfun]
    exact upsertBoard_of_not_mem l b h
  · intro l1 l2 x b hx h1
    rw [hfun]
    exact upsertBoard_replace l1 l2 x b hx h1
  · intro l bs i b hlast
    rw [hfun, find?_foldl_upsertBoard]
    exact foldl_lastById_some i b bs hlast _

/-- C4 witness: a snapshot for a known id replaces the stored entry, a
snapshot for a new id is appended, and receiving two snapshots for the
same id leaves the one received last. -/
theorem receiveUpdateBoard_last_write_wins_witness :
    receiveUpdateBoard [boardA] boardB = [boardA, boardB] ∧
    receiveUpdateBoard [boardA, boardB] boardA2 = [boardA2, boardB] ∧
    ([boardA, boardA2].foldl receiveUpdateBoard [boardB]).find?
        (fun x => x.id == "a") = some boardA2 := by
  refine ⟨?_, ?_, ?_⟩
  · exact receiveUpdateBoard_last_write_wins.1 [boardA] boardB (by decide)
  · exact receiveUpdateBoard_last_write_wins.2.1 [] [boardB] boardA boardA2
      (by decide) (by decide)
  · exact receiveUpdateBoard_last_write_wins.2.2 [boardB] [boardA, boardA2]
      "a" boardA2 (by decide)

/-! ## Claim theorem: layer reordering -/

/-- C6: `changeItemLayer` moves the item with the given id (at its first
occurrence) to the last position for `front` and to the first position
for `back`, keeping the list length, the membership (a permutation) and
the relative order of the other items; an absent id leaves the board
unchanged. -/
theorem changeItemLayer_spec :
    (∀ (b : Board) (id : String) (dir : LayerDirection),
        id ∉ b.items.map (fun i => i.id) → changeItemLayer b id dir = b) ∧
    (∀ (b : Board) (l1 l2 : List CanvasItem) (x : CanvasItem) (id : String),
        b.items = l1 ++ x :: l2 → x.id = id → id ∉ l1.map (fun i => i.id) →
        changeItemLayer b id .front = { b with items := (l1 ++ l2) ++ [x] } ∧
        changeItemLayer b id .back = { b with items := x :: (l1 ++ l2) } ∧
        (changeItemLayer b id .front).items.length = b.items.length ∧
        (changeItemLayer b id .back).items.length = b.items.length ∧
        (changeItemLayer b id .front).items.Perm b.items ∧
        (changeItemLayer b id .back).items.Perm b.items) := by
  constructor
  · intro b id dir h
    simp [changeItemLayer, extractFirstItem_of_not_mem id b.items h]
  · intro b l1 l2 x id hb hx h1
    have hext : extractFirstItem id b.items = some (x, l1 ++ l2) := by
      rw [hb]
      exact extractFirstItem_first id l1 l2 x hx h1
    have hfront : changeItemLayer b id .front =
        { b with items := (l1 ++ l2) ++ [x] } := by
      simp [changeItemLayer, hext]
    have hback : changeItemLayer b id .back =
        { b with items := x :: (l1 ++ l2) } := by
      simp [changeItemLayer, hext]
    have hpf : ((l1 ++ l2) ++ [x]).Perm b.items := by
      rw [hb]
      exact (List.perm_append_singleton x (l1 ++ l2)).trans
        List.perm_middle.symm
    have hpb : (x :: (l1 ++ l2)).Perm b.items := by
      rw [hb]
      exact List.perm_middle.symm
    refine ⟨hfront, hback, ?_, ?_, ?_, ?_⟩
    · rw [hfront]; simpa using hpf.length_eq
    · rw [hback]; simpa using hpb.length_eq
    · rw [hfront]; exact hpf
    · rw [hback]; exact hpb

/-- C6 witness: on the sample board, `front` sends `item2` to the end,
`back` sends it to the start, lengths are preserved, and an unknown id is
a no-op. -/
theorem changeItemLayer_spec_witness :
    changeItemLayer board0 "i2" .front =
      { board0 with items := [item1, emojiAuto, zeroWidthEmoji, item2] } ∧
    changeItemLayer board0 "i2" .back =
      { board0 with items := [item2, item1, emojiAuto, zeroWidthEmoji] } ∧
    (changeItemLayer board0 "i2" .front).items.length =
      board0.items.length ∧
    changeItemLayer board0 "missing" .back = board0 := by
  have h := changeItemLayer_spec.2 board0 [item1] [emojiAuto, zeroWidthEmoji]
    item2 "i2" (by decide) (by decide) (by decide)
  exact ⟨h.1, h.2.1, h.2.2.1, changeItemLayer_spec.1 board0 "missing" .back
    (by decide)⟩

/-! ## Helper lemmas: drag interaction -/

/-- A `handlePointerDown` that finds its item sets the interaction slot
and touches nothing else. -/
theorem handlePointerDown_eq (s : AppState) (b : Board) (id : String)
    (item : CanvasItem) (p0 : Pointer) (hb : s.currentBoard = some b)
    (hfind : b.items.find? (fun i => i.id == id) = some item) :
    handlePointerDown s p0 id =
      { s with draggedItemId := some id, interactionStart := p0,
               itemInitialState := some item } := by
  simp [handlePointerDown, findItem, hb, hfind]

/-- A move while dragging replaces the current board's items with the
snapshot-based update; every other field is untouched. -/
theorem handlePointerMove_drag (s : AppState) (e : Pointer) (board : Board)
    (snap : CanvasItem) (dragId : String)
    (hb : s.currentBoard = some board)
    (hsnap : s.itemInitialState = some snap)
    (hd : s.draggedItemId = some dragId) :
    handlePointerMove s e =
      { s with
        currentBoard := some { board with
          items := dragUpdate board.items dragId snap
            (e.x - s.interactionStart.x) (e.y - s.interactionStart.y) } } := by
  simp [handlePointerMove, hb, hsnap, hd]

/-- Re-applying the drag update from the same snapshot overwrites the
previous update: position never accumulates delta on delta. -/
theorem dragUpdate_dragUpdate (items : List CanvasItem) (dragId : String)
    (snap : CanvasItem) (d1x d1y d2x d2y : Int) :
    dragUpdate (dragUpdate items dragId snap d1x d1y) dragId snap d2x d2y =
      dragUpdate items dragId snap d2x d2y := by
  simp only [dragUpdate, List.map_map]
  congr 1
  funext a
  by_cases h : a.id == dragId <;> simp [Function.comp, h]

/-- Looking the dragged id up after a drag update yields the item at the
snapshot position plus the current delta. -/
theorem find?_dragUpdate (items : List CanvasItem) (dragId : String)
    (snap : CanvasItem) (dx dy : Int) :
    (dragUpdate items dragId snap dx dy).find? (fun i => i.id == dragId) =
      (items.find? (fun i => i.id == dragId)).map
        (fun i => { i with x := snap.x + dx, y := snap.y + dy }) := by
  induction items with
  | nil => rfl
  | cons a rest ih =>
    by_cases h : a.id == dragId
    · simp [dragUpdate, List.find?, h]
    · simp only [dragUpdate, List.map_cons] at ih ⊢
      have h' : (a.id == dragId) = false := by simpa using h
      simp only [h', Bool.false_eq_true, if_false, List.find?, h']
      exact ih

/-- The first move after a pointer-down puts the machine in the
mid-drag state for that pointer. -/
theorem move_from_down (s : AppState) (b : Board) (id : String)
    (item : CanvasItem) (p0 q : Pointer) (hb : s.currentBoard = some b)
    (hfind : b.items.find? (fun i => i.id == id) = some item) :
    handlePointerMove (handlePointerDown s p0 id) q =
      dragMovedState s b id item p0 q := by
  rw [handlePointerDown_eq s b id item p0 hb hfind]
  rw [handlePointerMove_drag
    { s with draggedItemId := some id, interactionStart := p0,
             itemInitialState := some item }
    q b item id hb rfl rfl]
  rfl

/-- A further move recomputes the board from the unchanged snapshot: the
mid-drag state depends only on the latest pointer. -/
theorem move_from_moved (s : AppState) (b : Board) (id : String)
    (item : CanvasItem) (p0 e q : Pointer) :
    handlePointerMove (dragMovedState s b id item p0 e) q =
      dragMovedState s b id item p0 q := by
  rw [handlePointerMove_drag (dragMovedState s b id item p0 e) q
    ({ b with items := dragUpdate b.items id item (e.x - p0.x) (e.y - p0.y) })
    item id rfl rfl rfl]
  simp [dragMovedState, dragUpdate_dragUpdate]

/-- Any run of moves from a mid-drag state ends in the mid-drag state of
the last pointer. -/
theorem foldl_move_from_moved (s : AppState) (b : Board) (id : String)
    (item : CanvasItem) (p0 : Pointer) :
    ∀ (qs : List Pointer) (e : Pointer),
      qs.foldl handlePointerMove (dragMovedState s b id item p0 e) =
        dragMovedState s b id item p0 (qs.getLastD e) := by
  intro qs
  induction qs with
  | nil => intro e; rfl
  | cons q rest ih =>
    intro e
    rw [List.foldl_cons, move_from_moved, List.getLastD_cons]
    exact ih q

/-! ## Claim theorem: drag exactness -/

/-- C2: pointer-down on the item found for `id` (position snapshot
`item`), any sequence of intermediate moves followed by a final move at
`pl`, then release: the committed board holds the item at exactly
`snapshot + (pl - p0)` — independent of the intermediate moves — the
committed board is upserted into the boards list, and the interaction
slot is cleared. -/
theorem drag_commit_exact (s : AppState) (b : Board) (id : String)
    (item : CanvasItem) (p0 pl : Pointer) (ps : List Pointer)
    (hb : s.currentBoard = some b)
    (hfind : b.items.find? (fun i => i.id == id) = some item) :
    (handlePointerUp ((ps ++ [pl]).foldl handlePointerMove
        (handlePointerDown s p0 id))).currentBoard =
      some { b with
             items := dragUpdate b.items id item (pl.x - p0.x)
               (pl.y - p0.y) } ∧
    (dragUpdate b.items id item (pl.x - p0.x) (pl.y - p0.y)).find?
        (fun i => i.id == id) =
      some { item with
             x := item.x + (pl.x - p0.x), y := item.y + (pl.y - p0.y) } ∧
    (handlePointerUp ((ps ++ [pl]).foldl handlePointerMove
        (handlePointerDown s p0 id))).boards =
      upsertBoard s.boards
        { b with
          items := dragUpdate b.items id item (pl.x - p0.x)
            (pl.y - p0.y) } ∧
    (handlePointerUp ((ps ++ [pl]).foldl handlePointerMove
        (handlePointerDown s p0 id))).draggedItemId = none ∧
    (handlePointerUp ((ps ++ [pl]).foldl handlePointerMove
        (handlePointerDown s p0 id))).itemInitialState = none := by
  have hfold : (ps ++ [pl]).foldl handlePointerMove
      (handlePointerDown s p0 id) = dragMovedState s b id item p0 pl := by
    cases ps with
    | nil =>
      simp only [List.nil_append, List.foldl_cons, List.foldl_nil]
      exact move_from_down s b id item p0 pl hb hfind
    | cons q qs =>
      rw [List.cons_append, List.foldl_cons,
        move_from_down s b id item p0 q hb hfind,
        foldl_move_from_moved s b id item p0 (qs ++ [pl]) q,
        List.getLastD_concat]
  rw [hfold]
  refine ⟨?_, ?_, ?_, ?_, ?_⟩
  · simp [handlePointerUp, dragMovedState, saveAndBroadcastBoard]
  · rw [find?_dragUpdate, hfind]
    rfl
  · simp [handlePointerUp, dragMovedState, saveAndBroadcastBoard]
  · simp [handlePointerUp, dragMovedState, saveAndBroadcastBoard]
  · simp [handlePointerUp, dragMovedState, saveAndBroadcastBoard]

/-- C2 witness: dragging `item1` from pointer (1,1) via an intermediate
move to (3,4) and a final move to (10,-2), then releasing, commits it at
(5+9, 7-3) = (14, 4). -/
theorem drag_commit_exact_witness :
    (handlePointerUp ((([⟨3, 4⟩] ++ [⟨10, -2⟩] : List Pointer)).foldl
        handlePointerMove (handlePointerDown state0 ⟨1, 1⟩ "i1"))).currentBoard =
      some { board0 with
             items := dragUpdate board0.items "i1" item1 9 (-3) } ∧
    (dragUpdate board0.items "i1" item1 9 (-3)).find?
        (fun i => i.id == "i1") = some { item1 with x := 14, y := 4 } := by
  have h := drag_commit_exact state0 board0 "i1" item1 ⟨1, 1⟩ ⟨10, -2⟩
    [⟨3, 4⟩] rfl (by decide)
  exact ⟨h.1, h.2.1⟩

/-! ## Helper lemmas: resize snapshot and clamping -/

/-- The per-type default width is never the falsy number 0. -/
theorem defaultWidth_ne_zero (t : ItemType) : defaultWidth t ≠ 0 := by
  cases t <;> decide

/-- The per-type default height is never the falsy number 0. -/
theorem defaultHeight_ne_some_zero (t : ItemType) :
    defaultHeight t ≠ some 0 := by
  cases t <;> decide

/-- Width of the resize snapshot, unfolded. -/
theorem resizeSnapshot_width_def (item : CanvasItem) :
    (resizeSnapshot item).width =
      jsOrNum item.width (some (defaultWidth item.type)) := rfl

/-- Height of the resize snapshot, unfolded. -/
theorem resizeSnapshot_height_def (item : CanvasItem) :
    (resizeSnapshot item).height =
      jsOrNum item.height (defaultHeight item.type) := rfl

/-- A JS `||` with a default that is not the number 0 never yields 0. -/
theorem jsOrNum_ne_zero (a b : Option Int) (hb : b ≠ some 0) :
    ∀ n : Int, jsOrNum a b = some n → n ≠ 0 := by
  intro n h
  unfold jsOrNum at h
  by_cases ht : truthyNum a
  · rw [if_pos ht] at h
    rw [h] at ht
    simpa [truthyNum] using ht
  · rw [if_neg ht] at h
    intro hn
    rw [hn] at h
    exact hb h

/-- A JS `||` with a present default is present. -/
theorem jsOrNum_isSome (a b : Option Int) (hb : b.isSome) :
    (jsOrNum a b).isSome := by
  unfold jsOrNum
  by_cases ht : truthyNum a
  · rw [if_pos ht]
    cases a with
    | none => exact absurd ht (by simp [truthyNum])
    | some n => rfl
  · rw [if_neg ht]
    exact hb

/-! ## Claim theorem: resize clamping -/

/-- C3: a resize move at delta `(dx,dy)` from the snapshot captured at
`beginResize` sets the live width to `max 50 (width0 + dx)` (the
snapshot width is always present), sets the live height to
`max 50 (height0 + dy)` when the snapshot height is present and to
`undefined` when it is absent, and therefore never produces a defined
width or height below 50, whatever the deltas. -/
theorem resize_move_clamped (item0 target : CanvasItem) (dx dy : Int) :
    (resizeSnapshot item0).width.isSome = true ∧
    (∀ w0 : Int, (resizeSnapshot item0).width = some w0 →
        (resizeItem (resizeSnapshot item0) dx dy target).width =
          some (max 50 (w0 + dx))) ∧
    (∀ h0 : Int, (resizeSnapshot item0).height = some h0 →
        (resizeItem (resizeSnapshot item0) dx dy target).height =
          some (max 50 (h0 + dy))) ∧
    ((resizeSnapshot item0).height = none →
        (resizeItem (resizeSnapshot item0) dx dy target).height = none) ∧
    (∀ w : Int, (resizeItem (resizeSnapshot item0) dx dy target).width =
        some w → 50 ≤ w) ∧
    (∀ h : Int, (resizeItem (resizeSnapshot item0) dx dy target).height =
        some h → 50 ≤ h) := by
  have hwdef : (resizeItem (resizeSnapshot item0) dx dy target).width =
      some (max 50 ((resizeSnapshot item0).width.getD 0 + dx)) := rfl
  have hhdef : (resizeItem (resizeSnapshot item0) dx dy target).height =
      if truthyNum (resizeSnapshot item0).height then
        some (max 50 ((resizeSnapshot item0).height.getD 0 + dy))
      else none := rfl
  refine ⟨?_, ?_, ?_, ?_, ?_, ?_⟩
  · rw [resizeSnapshot_width_def]
    exact jsOrNum_isSome _ _ rfl
  · intro w0 hw0
    rw [hwdef, hw0]
    rfl
  · intro h0 hh0
    have hne : h0 ≠ 0 := by
      refine jsOrNum_ne_zero item0.height (defaultHeight item0.type)
        (defaultHeight_ne_some_zero item0.type) h0 ?_
      rw [← resizeSnapshot_height_def]
      exact hh0
    have htr : truthyNum (resizeSnapshot item0).height = true := by
      rw [hh0]
      simpa [truthyNum] using hne
    rw [hhdef, htr, if_pos rfl, hh0]
    rfl
  · intro hh0
    rw [hhdef, hh0]
    rfl
  · intro w hw
    rw [hwdef] at hw
    injection hw with hw
    rw [← hw]
    exact le_max_left _ _
  · intro h hh
    rw [hhdef] at hh
    by_cases htr : truthyNum (resizeSnapshot item0).height
    · rw [if_pos htr] at hh
      injection hh with hh
      rw [← hh]
      exact le_max_left _ _
    · rw [if_neg htr] at hh
      exact absurd hh (by simp)

/-- C3 witness: resizing the default-snapshotted EMOJI by (20,-60)
yields 120×50 (height clamped up from 40), and a huge negative delta
clamps both dimensions of `item2` to 50. -/
theorem resize_move_clamped_witness :
    (resizeItem (resizeSnapshot emojiAuto) 20 (-60) emojiAuto).width =
      some 120 ∧
    (resizeItem (resizeSnapshot emojiAuto) 20 (-60) emojiAuto).height =
      some 50 ∧
    (resizeItem (resizeSnapshot item2) (-500) (-500) item2).width =
      some 50 ∧
    (resizeItem (resizeSnapshot item2) (-500) (-500) item2).height =
      some 50 := by
  have h1 := resize_move_clamped emojiAuto emojiAuto 20 (-60)
  have h2 := resize_move_clamped item2 item2 (-500) (-500)
  refine ⟨?_, ?_, ?_, ?_⟩
  · exact (h1.2.1 100 (by decide)).trans (by decide)
  · exact (h1.2.2.1 100 (by decide)).trans (by decide)
  · exact (h2.2.1 100 (by decide)).trans (by decide)
  · exact (h2.2.2.1 100 (by decide)).trans (by decide)

/-! ## Claim theorems: interaction slot (first-wins vs last-wins) -/

/-- C5 counterexample: with a drag of `item1` active, a second
pointer-down on `item2` is not ignored — it overwrites the dragged item
id, the start pointer and the snapshot. -/
theorem second_begin_drag_overwrites :
    (handlePointerDown state0 ⟨1, 1⟩ "i1").draggedItemId = some "i1" ∧
    (handlePointerDown state0 ⟨1, 1⟩ "i1").itemInitialState = some item1 ∧
    (handlePointerDown (handlePointerDown state0 ⟨1, 1⟩ "i1") ⟨9, 9⟩
        "i2").draggedItemId = some "i2" ∧
    (handlePointerDown (handlePointerDown state0 ⟨1, 1⟩ "i1") ⟨9, 9⟩
        "i2").draggedItemId ≠
      (handlePointerDown state0 ⟨1, 1⟩ "i1").draggedItemId ∧
    (handlePointerDown (handlePointerDown state0 ⟨1, 1⟩ "i1") ⟨9, 9⟩
        "i2").interactionStart ≠
      (handlePointerDown state0 ⟨1, 1⟩ "i1").interactionStart ∧
    (handlePointerDown (handlePointerDown state0 ⟨1, 1⟩ "i1") ⟨9, 9⟩
        "i2").itemInitialState ≠
      (handlePointerDown state0 ⟨1, 1⟩ "i1").itemInitialState := by
  decide

/-- C5 amended: the interaction slot is last-wins, not first-wins.
Whatever interaction is currently active, a `beginDrag` on an item
present in the current board sets the dragged id, the start pointer and
the snapshot to the new interaction's values, and a `beginResize`
likewise sets the resizing id, the start pointer and the defaulted
snapshot; neither is ignored. -/
theorem begin_interaction_last_wins (s : AppState) (e : Pointer)
    (id : String) (item : CanvasItem)
    (hfind : findItem s.currentBoard id = some item) :
    (handlePointerDown s e id).draggedItemId = some id ∧
    (handlePointerDown s e id).interactionStart = e ∧
    (handlePointerDown s e id).itemInitialState = some item ∧
    (handlePointerDown s e id).resizingItemId = s.resizingItemId ∧
    (handleResizeStart s e id).resizingItemId = some id ∧
    (handleResizeStart s e id).interactionStart = e ∧
    (handleResizeStart s e id).itemInitialState =
      some (resizeSnapshot item) ∧
    (handleResizeStart s e id).draggedItemId = s.draggedItemId := by
  unfold handlePointerDown handleResizeStart
  rw [hfind]
  exact ⟨rfl, rfl, rfl, rfl, rfl, rfl, rfl, rfl⟩

/-- C5 amended witness: while `item1` is being dragged, a pointer-down
on `item2` installs the new drag in the slot. -/
theorem begin_interaction_last_wins_witness :
    (handlePointerDown (handlePointerDown state0 ⟨1, 1⟩ "i1") ⟨9, 9⟩
        "i2").draggedItemId = some "i2" ∧
    (handlePointerDown (handlePointerDown state0 ⟨1, 1⟩ "i1") ⟨9, 9⟩
        "i2").itemInitialState = some item2 ∧
    (handleResizeStart (handlePointerDown state0 ⟨1, 1⟩ "i1") ⟨9, 9⟩
        "i2").resizingItemId = some "i2" := by
  have h := begin_interaction_last_wins
    (handlePointerDown state0 ⟨1, 1⟩ "i1") ⟨9, 9⟩ "i2" item2 (by decide)
  exact ⟨h.1, h.2.2.1, h.2.2.2.2.1⟩

/-! ## Helper lemmas: idle states ignore moves and releases -/

/-- A move with no captured snapshot does nothing. -/
theorem handlePointerMove_idle (s : AppState) (e : Pointer)
    (hs : s.itemInitialState = none) : handlePointerMove s e = s := by
  cases hc : s.currentBoard <;> simp [handlePointerMove, hs, hc]

/-- A release with no active interaction does nothing. -/
theorem handlePointerUp_idle (s : AppState) (hd : s.draggedItemId = none)
    (hr : s.resizingItemId = none) : handlePointerUp s = s := by
  cases hc : s.currentBoard <;> simp [handlePointerUp, hd, hr, hc]

/-- The authorization gate rejects a user who is neither the author nor
the host. -/
theorem isAuthorized_false (u : User) (item : CanvasItem)
    (hostName : String) (hA : u.name ≠ item.author)
    (hH : u.name ≠ hostName) :
    isAuthorized (some u) item hostName = false := by
  simp [isAuthorized, hA, hH]

/-! ## Claim theorem: unauthorized users cannot mutate -/

/-- C7: for a user who is neither the item's author nor the board host,
a pointer-down on the item or on its resize handle does not start an
interaction, and any sequence of pointer events made of such downs plus
arbitrary moves and releases leaves the whole app state — in particular
the item's `x`, `y`, `width`, `height` inside the current board —
unchanged. -/
theorem unauthorized_events_no_mutation (u : User) (item : CanvasItem)
    (hostName : String) (s : AppState)
    (events : List CanvasPointerEvent)
    (hA : u.name ≠ item.author) (hH : u.name ≠ hostName)
    (hd : s.draggedItemId = none) (hr : s.resizingItemId = none)
    (hs : s.itemInitialState = none) :
    (∀ e : Pointer, itemPointerDown (some u) hostName item s e = s) ∧
    (∀ e : Pointer, itemResizePointerDown (some u) hostName item s e = s) ∧
    events.foldl (applyPointerEvent (some u) hostName item) s = s ∧
    (events.foldl (applyPointerEvent (some u) hostName item)
        s).currentBoard = s.currentBoard := by
  have hauth := isAuthorized_false u item hostName hA hH
  have hdown : ∀ e : Pointer,
      itemPointerDown (some u) hostName item s e = s := by
    intro e
    simp [itemPointerDown, hauth]
  have hrsd : ∀ e : Pointer,
      itemResizePointerDown (some u) hostName item s e = s := by
    intro e
    simp [itemResizePointerDown, hauth]
  have hstep : ∀ ev : CanvasPointerEvent,
      applyPointerEvent (some u) hostName item s ev = s := by
    intro ev
    cases ev with
    | down e => exact hdown e
    | resizeStart e => exact hrsd e
    | move e => exact handlePointerMove_idle s e hs
    | up => exact handlePointerUp_idle s hd hr
  have hfold : events.foldl (applyPointerEvent (some u) hostName item) s
      = s := by
    induction events with
    | nil => rfl
    | cons ev rest ih =>
      rw [List.foldl_cons, hstep ev]
      exact ih
  exact ⟨hdown, hrsd, hfold, by rw [hfold]⟩

/-- C7 witness: Eve (neither author Ann nor host Hank) pointer-downs,
moves, grabs the resize handle, moves again and releases on `item1`;
the state is exactly the initial one. -/
theorem unauthorized_events_no_mutation_witness :
    itemPointerDown (some eve) "Hank" item1 state0 ⟨1, 1⟩ = state0 ∧
    ([CanvasPointerEvent.down ⟨1, 1⟩, .move ⟨5, 5⟩, .resizeStart ⟨2, 2⟩,
        .move ⟨9, 9⟩, .up]).foldl
      (applyPointerEvent (some eve) "Hank" item1) state0 = state0 := by
  have h := unauthorized_events_no_mutation eve item1 "Hank" state0
    [CanvasPointerEvent.down ⟨1, 1⟩, .move ⟨5, 5⟩, .resizeStart ⟨2, 2⟩,
        .move ⟨9, 9⟩, .up] (by decide) (by decide) rfl rfl rfl
  exact ⟨h.1 ⟨1, 1⟩, h.2.2.1⟩

/-! ## Claim theorems: resize snapshot defaults -/

/-- C9 counterexample: `zeroWidthEmoji` has a defined width (the number
0), yet `beginResize` snapshots its width as the per-type default 100,
not the current value — JS falsiness treats a defined 0 like
`undefined`. -/
theorem resizeSnapshot_zero_width_counterexample :
    zeroWidthEmoji.width = some 0 ∧
    (handleResizeStart state0 ⟨0, 0⟩ "z").itemInitialState =
      some (resizeSnapshot zeroWidthEmoji) ∧
    (resizeSnapshot zeroWidthEmoji).width = some 100 ∧
    (resizeSnapshot zeroWidthEmoji).width ≠ zeroWidthEmoji.width := by
  decide

/-- C9 amended: `beginResize` snapshots the item's current width/height
when defined and nonzero, and the per-type defaults (TEXT→250×auto,
EMOJI→100×100, IMAGE/STICKER→200×200) when the field is `undefined` or
the defined-but-falsy number 0; on an EMOJI with no prior dimensions a
move with delta (20,-60) yields live 120×50 (height clamped up from
40). -/
theorem resizeSnapshot_defaults (item : CanvasItem) :
    (∀ w : Int, item.width = some w → w ≠ 0 →
        (resizeSnapshot item).width = some w) ∧
    (item.width = none →
        (resizeSnapshot item).width = some (defaultWidth item.type)) ∧
    (item.width = some 0 →
        (resizeSnapshot item).width = some (defaultWidth item.type)) ∧
    (∀ h : Int, item.height = some h → h ≠ 0 →
        (resizeSnapshot item).height = some h) ∧
    (item.height = none →
        (resizeSnapshot item).height = defaultHeight item.type) ∧
    (item.height = some 0 →
        (resizeSnapshot item).height = defaultHeight item.type) ∧
    (defaultWidth .TEXT = 250 ∧ defaultWidth .EMOJI = 100 ∧
      defaultWidth .IMAGE = 200 ∧ defaultWidth .STICKER = 200) ∧
    (defaultHeight .TEXT = none ∧ defaultHeight .EMOJI = some 100 ∧
      defaultHeight .IMAGE = some 200 ∧ defaultHeight .STICKER = some 200) ∧
    (item.type = .EMOJI → item.width = none → item.height = none →
      ∀ target : CanvasItem,
        (resizeItem (resizeSnapshot item) 20 (-60) target).width =
          some 120 ∧
        (resizeItem (resizeSnapshot item) 20 (-60) target).height =
          some 50) := by
  refine ⟨?_, ?_, ?_, ?_, ?_, ?_, ⟨rfl, rfl, rfl, rfl⟩,
    ⟨rfl, rfl, rfl, rfl⟩, ?_⟩
  · intro w hw hne
    rw [resizeSnapshot_width_def, hw]
    simp [jsOrNum, truthyNum, hne]
  · intro hw
    rw [resizeSnapshot_width_def, hw]
    rfl
  · intro hw
    rw [resizeSnapshot_width_def, hw]
    rfl
  · intro h hh hne
    rw [resizeSnapshot_height_def, hh]
    simp [jsOrNum, truthyNum, hne]
  · intro hh
    rw [resizeSnapshot_height_def, hh]
    rfl
  · intro hh
    rw [resizeSnapshot_height_def, hh]
    rfl
  · intro hT hw hh target
    have hsw : (resizeSnapshot item).width = some 100 := by
      rw [resizeSnapshot_width_def, hw, hT]
      rfl
    have hsh : (resizeSnapshot item).height = some 100 := by
      rw [resizeSnapshot_height_def, hh, hT]
      rfl
    constructor
    · have hwdef : (resizeItem (resizeSnapshot item) 20 (-60) target).width
          = some (max 50 ((resizeSnapshot item).width.getD 0 + 20)) := rfl
      rw [hwdef, hsw]
      decide
    · have hhdef : (resizeItem (resizeSnapshot item) 20 (-60) target).height
          = if truthyNum (resizeSnapshot item).height then
              some (max 50 ((resizeSnapshot item).height.getD 0 + (-60)))
            else none := rfl
      rw [hhdef, hsh]
      decide

/-- C9 amended witness: the EMOJI with no prior dimensions snapshots to
100×100 and resizes by (20,-60) to live 120×50; `item1`'s defined width
250 is kept. -/
theorem resizeSnapshot_defaults_witness :
    (resizeSnapshot emojiAuto).width = some 100 ∧
    (resizeSnapshot emojiAuto).height = some 100 ∧
    (resizeItem (resizeSnapshot emojiAuto) 20 (-60) emojiAuto).width =
      some 120 ∧
    (resizeItem (resizeSnapshot emojiAuto) 20 (-60) emojiAuto).height =
      some 50 ∧
    (resizeSnapshot item1).width = some 250 := by
  have h := resizeSnapshot_defaults emojiAuto
  have hs := h.2.2.2.2.2.2.2.2 rfl rfl rfl emojiAuto
  refine ⟨?_, ?_, hs.1, hs.2, ?_⟩
  · exact (h.2.1 rfl).trans (by decide)
  · exact (h.2.2.2.2.1 rfl).trans (by decide)
  · exact (resizeSnapshot_defaults item1).1 250 rfl (by decide)

/-! ## Claim theorems: board loading -/

/-- C8: `loadBoards` is a total function (the embedding of "never
throws": every exception of `JSON.parse` is caught) and returns the
empty board list for a missing stored value, for the falsy empty string,
and for every string the parser rejects. -/
theorem loadBoards_fails_soft (parse : String → Except String Json)
    (s : String) :
    loadBoards parse none = Json.arr [] ∧
    loadBoards parse (some "") = Json.arr [] ∧
    (∀ e : String, parse s = .error e →
        loadBoards parse (some s) = Json.arr []) := by
  refine ⟨rfl, rfl, ?_⟩
  intro e he
  unfold loadBoards safeJsonParse
  by_cases hs : s = ""
  · simp [hs]
  · simp [hs, he]

/-- C8 witness: a failing parse on a present malformed string yields the
empty list. -/
theorem loadBoards_fails_soft_witness :
    loadBoards failParse (some "not json") = Json.arr [] :=
  (loadBoards_fails_soft failParse "not json").2.2 "SyntaxError" rfl

/-- C10: `loadBoards` performs no shape validation beyond the parse: any
successfully parsed JSON value — a number or object as much as an array
of boards — is returned unchanged, so only a missing value or a parse
failure produces the empty-list fallback. -/
theorem loadBoards_no_shape_validation
    (parse : String → Except String Json) (s : String) (v : Json)
    (hne : s ≠ "") (hok : parse s = .ok v) :
    loadBoards parse (some s) = v := by
  unfold loadBoards safeJsonParse
  simp [hne, hok]

/-- C10 witness: a stored string parsing to the JSON number 7 loads as
the number 7, which is not the empty-list fallback. -/
theorem loadBoards_no_shape_validation_witness :
    loadBoards numParse (some "7") = Json.num 7 ∧
    Json.num 7 ≠ Json.arr [] := by
  refine ⟨loadBoards_no_shape_validation numParse "7" (Json.num 7)
    (by decide) rfl, ?_⟩
  intro h
  exact Json.noConfusion h
